import Mathlib

/-!
# Verification of the LVC GWTC-1 catalogue generator

A shallow embedding of `src/catalog_generators/lvc_gwtc1_parser.py`.

Modelling conventions:
* pandas `DataFrame`s become association lists of named columns of rationals
  (floats are modelled as `ℚ`);
* Python dictionaries become association lists; dictionary / column lookup of
  an absent key raises `KeyError`, modelled by the `Err.keyError` error of an
  `Except` computation (`KeyError` is the runtime face of the spec's
  `MissingColumn` / `MissingParameter` taxonomy);
* the external cosmology collaborator (`luminosity_distance_to_redshift`,
  `utils.get_redshift_from_dl`) is an explicit function parameter `z : ℚ → ℚ`;
* repository modules that are not part of the provided sources
  (`utils.summarise_samples`, `utils.sort_parameters`,
  `utils.add_aligned_component_spins`, `event_keys.GWOSC_KEYS`) are modelled
  from the specification; each such definition is marked
  `Modelled from the spec:` in its doc comment.
-/

/-- Errors of the pipeline: `keyError k` models Python's `KeyError(k)` raised
by a failed column / dictionary lookup (the spec's `MissingColumn` /
`MissingParameter`), `emptySample` models the Quantile Summarizer's
`EmptySample` failure. -/
inductive Err where
  | keyError (key : String)
  | emptySample
deriving DecidableEq, Repr

/-- One posterior column: the list of per-draw sample values. -/
abbrev Col := List ℚ

/-- A pandas `DataFrame`: an ordered sequence of named, equal-length columns. -/
abbrev Table := List (String × Col)

/-- Python `d[k] = v` on a dict / DataFrame: replace the first binding of `k`
in place, or append a new binding at the end. -/
def setKey {α : Type} : List (String × α) → String → α → List (String × α)
  | [], k, v => [(k, v)]
  | p :: rest, k, v => if p.1 = k then (k, v) :: rest else p :: setKey rest k v

/-- Keys of an association list, in order. -/
def keysOf {α : Type} (d : List (String × α)) : List String :=
  d.map Prod.fst

/-- DataFrame column lookup `df[name]`, first binding wins. -/
def getCol? (t : Table) (n : String) : Option Col :=
  List.lookup n t

/-- Lookup `df[name]` as a fallible computation: a missing column raises `KeyError`. -/
def getCol (t : Table) (n : String) : Except Err Col :=
  match getCol? t n with
  | some c => .ok c
  | none => .error (.keyError n)

/-- Whether a DataFrame has a column of the given name. -/
def hasCol (t : Table) (n : String) : Bool :=
  (getCol? t n).isSome

/-- Python `len(df)`: the number of rows (length of the first column, 0 if empty). -/
def nrows (t : Table) : Nat :=
  match t with
  | [] => 0
  | p :: _ => p.2.length

/-- Dictionary lookup of a numeric entry; a missing key raises `KeyError`. -/
def getNum (d : List (String × ℚ)) (k : String) : Except Err ℚ :=
  match List.lookup k d with
  | some q => .ok q
  | none => .error (.keyError k)

@[simp] theorem ok_bind {ε α β : Type} (a : α) (f : α → Except ε β) :
    (Except.ok a >>= f) = f a := rfl

@[simp] theorem error_bind {ε α β : Type} (e : ε) (f : α → Except ε β) :
    ((Except.error e : Except ε α) >>= f) = Except.error e := rfl

@[simp] theorem ok_map {ε α β : Type} (a : α) (f : α → β) :
    (f <$> (Except.ok a : Except ε α)) = Except.ok (f a) := rfl

@[simp] theorem error_map {ε α β : Type} (e : ε) (f : α → β) :
    (f <$> (Except.error e : Except ε α)) = Except.error e := rfl

theorem bind_ok_iff {ε α β : Type} {a : Except ε α} {f : α → Except ε β} {b : β} :
    (a >>= f) = .ok b ↔ ∃ x, a = .ok x ∧ f x = .ok b := by
  cases a with
  | ok x => simp
  | error e =>
    simp only [error_bind]
    constructor
    · intro h; cases h
    · rintro ⟨x, hx, -⟩; cases hx

@[simp] theorem keysOf_nil {α : Type} : keysOf ([] : List (String × α)) = [] := rfl

@[simp] theorem keysOf_cons {α : Type} (p : String × α) (rest : List (String × α)) :
    keysOf (p :: rest) = p.1 :: keysOf rest := rfl

@[simp] theorem lookup_nil {α : Type} (k : String) :
    List.lookup k ([] : List (String × α)) = none := rfl

@[simp] theorem lookup_cons {α : Type} (k a : String) (b : α) (l : List (String × α)) :
    List.lookup k ((a, b) :: l) = if k = a then some b else List.lookup k l := by
  by_cases h : k = a
  · simp [List.lookup, h]
  · have hb : (k == a) = false := beq_eq_false_iff_ne.mpr h
    simp [List.lookup, hb, h]

@[simp] theorem lookup_setKey {α : Type} (d : List (String × α)) (k' k : String) (v : α) :
    List.lookup k' (setKey d k v) = if k' = k then some v else List.lookup k' d := by
  induction d with
  | nil => simp [setKey]
  | cons p rest ih =>
    by_cases hpk : p.1 = k
    · by_cases h' : k' = k
      · simp [setKey, hpk, h']
      · have h'' : ¬ k' = p.1 := fun he => h' (he.trans hpk)
        cases p with
        | mk a b => simp_all [setKey]
    · by_cases h' : k' = p.1
      · have h'' : ¬ k' = k := fun he => hpk ((h'.symm.trans he))
        cases p with
        | mk a b => simp_all [setKey]
      · cases p with
        | mk a b => simp_all [setKey]

theorem keysOf_setKey_mem {α : Type} (d : List (String × α)) (k : String) (v : α)
    (h : k ∈ keysOf d) : keysOf (setKey d k v) = keysOf d := by
  induction d with
  | nil => simp at h
  | cons p rest ih =>
    by_cases hpk : p.1 = k
    · simp [setKey, hpk]
    · have hk : k ∈ keysOf rest := by
        rcases (by simpa using h : k = p.1 ∨ k ∈ keysOf rest) with h | h
        · exact absurd h.symm hpk
        · exact h
      simp [setKey, hpk, ih hk]

theorem keysOf_setKey_not_mem {α : Type} (d : List (String × α)) (k : String) (v : α)
    (h : ¬ k ∈ keysOf d) : keysOf (setKey d k v) = keysOf d ++ [k] := by
  induction d with
  | nil => simp [setKey]
  | cons p rest ih =>
    have hpk : ¬ p.1 = k := by
      intro he; exact h (by simp [he])
    have hk : ¬ k ∈ keysOf rest := by
      intro hm; exact h (by simp [hm])
    simp [setKey, hpk, ih hk]

theorem lookup_isSome_iff_mem_keys {α : Type} (d : List (String × α)) (k : String) :
    (List.lookup k d).isSome = true ↔ k ∈ keysOf d := by
  induction d with
  | nil => simp
  | cons p rest ih =>
    cases p with
    | mk a b =>
      by_cases h : k = a
      · simp [h]
      · simp [h, ih]

/-! ## Source-format constants (`lvc_gwtc1_parser.py` lines 19-30) -/

/-- The keys of `SEARCH_PARAMS`: the raw posterior columns the LVC GWTC-1
parser loads from an event file. -/
def SEARCH_PARAMS_KEYS : List String :=
  ["luminosity_distance_Mpc",
   "m1_detector_frame_Msun",
   "m2_detector_frame_Msun",
   "right_ascension",
   "declination",
   "costheta_jn",
   "spin1",
   "costilt1",
   "spin2",
   "costilt2"]

/-- The source columns actually read by `standardise_samples`
(every step's required source column; `costheta_jn` is loaded by the parser
but never read during standardization). -/
def STANDARDISE_SOURCE_COLUMNS : List String :=
  ["luminosity_distance_Mpc",
   "m1_detector_frame_Msun",
   "m2_detector_frame_Msun",
   "spin1",
   "spin2",
   "costilt1",
   "costilt2",
   "right_ascension",
   "declination"]

/-- Modelled from the spec: the Canonical Parameter Set
(`event_keys.REQUIRED_PARAMETERS`, a module not present in the provided
sources); the fixed, agreed-upon canonical schema of §3 of the spec. -/
def REQUIRED_PARAMETERS : List String :=
  ["mass_1", "mass_2", "mass_1_source", "mass_2_source", "mass_ratio",
   "luminosity_distance", "redshift", "ra", "dec", "a_1", "a_2",
   "cos_tilt_1", "cos_tilt_2", "spin_1z", "spin_2z", "incl", "phi_12",
   "phi_jl", "geocent_time"]

/-! ## Modelled external collaborators (repository modules absent from the
provided sources) -/

/-- Insert a value into a sorted list of rationals, keeping it sorted. -/
def insertSorted (x : ℚ) : List ℚ → List ℚ
  | [] => [x]
  | y :: ys => if x ≤ y then x :: y :: ys else y :: insertSorted x ys

/-- Insertion sort of a sample column (ascending). -/
def sortQ (xs : List ℚ) : List ℚ :=
  xs.foldr insertSorted []

/-- Modelled from the spec: the Quantile Summarizer
(`utils.summarise_samples`, a module not present in the provided sources).
Given one numeric sample column it returns the triple
`(lower, median, upper)` of a fixed 90%-credible-interval convention
(nearest-rank 5th / 50th / 95th percentiles of the sorted samples); it is
deterministic, does not reorder its input, and fails with `EmptySample` on an
empty column. -/
def summarise_samples (xs : List ℚ) : Except Err (ℚ × ℚ × ℚ) :=
  if xs.isEmpty then .error .emptySample
  else
    let sorted := sortQ xs
    let n := xs.length
    let lower := sorted.getD ((5 * (n - 1)) / 100) 0
    let median := sorted.getD ((50 * (n - 1)) / 100) 0
    let upper := sorted.getD ((95 * (n - 1) + 99) / 100) 0
    .ok (lower, median, upper)

/-- Modelled from the spec: the `@utils.sort_parameters` decorator
(`utils`, a module not present in the provided sources); §4.1 step 10:
"reorder/validate columns against the fixed Canonical Parameter Set before
returning".  Canonical parameters present in the table come first, in
canonical order, followed by the remaining columns in their original order;
the set of columns is unchanged. -/
def sort_parameters (t : Table) : Table :=
  REQUIRED_PARAMETERS.filterMap (fun n => t.find? (fun p => p.1 == n)) ++
    t.filter (fun p => !(REQUIRED_PARAMETERS.contains p.1))

/-- Modelled from the spec: `utils.add_aligned_component_spins`
(`utils`, a module not present in the provided sources); §4.1 step 8:
"compute effective/aligned spin combinations from the per-draw component
spins via the external aligned-spin-combination collaborator".  Adds the
effective aligned spin `chi_eff = (m1*s1z + m2*s2z) / (m1 + m2)` pointwise
from the source-frame masses and aligned spin components. -/
def add_aligned_component_spins (t : Table) : Except Err Table := do
  let m1 ← getCol t "mass_1_source"
  let m2 ← getCol t "mass_2_source"
  let s1z ← getCol t "spin_1z"
  let s2z ← getCol t "spin_2z"
  let num := List.zipWith (· + ·) (List.zipWith (· * ·) m1 s1z)
    (List.zipWith (· * ·) m2 s2z)
  let den := List.zipWith (· + ·) m1 m2
  .ok (setKey t "chi_eff" (List.zipWith (· / ·) num den))

/-- Modelled from the spec: the fixed published key set
(`event_keys.GWOSC_KEYS`, a module not present in the provided sources);
§3 Summary Record: "only a fixed, published key set is retained", each
summarized parameter contributing the three entries
`<name>_lower`, `<name>`, `<name>_upper`, plus point-estimate metadata
fields published as bare scalars. -/
def GWOSC_KEYS : List String :=
  ["mass_1_source", "mass_1_source_lower", "mass_1_source_upper",
   "mass_2_source", "mass_2_source_lower", "mass_2_source_upper",
   "chirp_mass_source", "chirp_mass_source_lower", "chirp_mass_source_upper",
   "total_mass_source", "total_mass_source_lower", "total_mass_source_upper",
   "luminosity_distance", "luminosity_distance_lower", "luminosity_distance_upper",
   "redshift", "redshift_lower", "redshift_upper",
   "chi_eff", "chi_eff_lower", "chi_eff_upper",
   "far", "p_astro", "GPS"]

/-! ## Sample standardization (`LvcGwtc1EventParser.standardise_samples`,
lines 136-158) -/

/-- The body of `LvcGwtc1EventParser.standardise_samples` (lines 138-158),
before the `@utils.sort_parameters` decorator is applied.  The external
redshift collaborator (`utils.get_redshift_from_dl`, applied pointwise to
the luminosity-distance column) is the explicit parameter `z`.  The
`for ii in [1, 2]` loop of the source is unrolled. -/
def standardise_samples_core (z : ℚ → ℚ) (samples : Table) : Except Err Table := do
  let dl ← getCol samples "luminosity_distance_Mpc"
  let samples := setKey samples "luminosity_distance" dl
  let ld ← getCol samples "luminosity_distance"
  let samples := setKey samples "redshift" (ld.map z)
  -- ii = 1
  let m1 ← getCol samples "m1_detector_frame_Msun"
  let zs1 ← getCol samples "redshift"
  let samples := setKey samples "mass_1_source"
    (List.zipWith (fun m zv => m / (1 + zv)) m1 zs1)
  let s1 ← getCol samples "spin1"
  let samples := setKey samples "a_1" s1
  let ct1 ← getCol samples "costilt1"
  let samples := setKey samples "cos_tilt_1" ct1
  let ct1' ← getCol samples "costilt1"
  let samples := setKey samples "spin_1z" ct1'
  -- ii = 2
  let m2 ← getCol samples "m2_detector_frame_Msun"
  let zs2 ← getCol samples "redshift"
  let samples := setKey samples "mass_2_source"
    (List.zipWith (fun m zv => m / (1 + zv)) m2 zs2)
  let s2 ← getCol samples "spin2"
  let samples := setKey samples "a_2" s2
  let ct2 ← getCol samples "costilt2"
  let samples := setKey samples "cos_tilt_2" ct2
  let ct2' ← getCol samples "costilt2"
  let samples := setKey samples "spin_2z" ct2'
  let m2s ← getCol samples "mass_2_source"
  let m1s ← getCol samples "mass_1_source"
  let samples := setKey samples "mass_ratio" (List.zipWith (· / ·) m2s m1s)
  let ra ← getCol samples "right_ascension"
  let samples := setKey samples "ra" ra
  let dec ← getCol samples "declination"
  let samples := setKey samples "dec" dec
  let samples ← add_aligned_component_spins samples
  let samples := setKey samples "incl" (List.replicate (nrows samples) 0)
  let samples := setKey samples "phi_12" (List.replicate (nrows samples) 0)
  let samples := setKey samples "phi_jl" (List.replicate (nrows samples) 0)
  let samples := setKey samples "geocent_time" (List.replicate (nrows samples) 0)
  .ok samples

/-- The full `LvcGwtc1EventParser.standardise_samples`: the body above with the
`@utils.sort_parameters` decorator applied to its result. -/
def standardise_samples (z : ℚ → ℚ) (samples : Table) : Except Err Table :=
  sort_parameters <$> standardise_samples_core z samples

/-! ## GWOSC conversion (`convert_df_to_gwosc_df`, lines 80-88) -/

/-- The function `convert_df_to_gwosc_df`: copies the input table and adds the renamed
mass / sky-position columns and the detector-frame mass ratio to the copy. -/
def convert_df_to_gwosc_df (df : Table) : Except Err Table := do
  let converted_df := df
  let m1 ← getCol converted_df "m1_detector_frame_Msun"
  let converted_df := setKey converted_df "mass_1" m1
  let m2 ← getCol converted_df "m2_detector_frame_Msun"
  let converted_df := setKey converted_df "mass_2" m2
  let mr2 ← getCol converted_df "mass_2"
  let mr1 ← getCol converted_df "mass_1"
  let converted_df := setKey converted_df "mass_ratio" (List.zipWith (· / ·) mr2 mr1)
  let ra ← getCol converted_df "right_ascension"
  let converted_df := setKey converted_df "ra" ra
  let dec ← getCol converted_df "declination"
  let converted_df := setKey converted_df "dec" dec
  .ok converted_df

/-! ## Event summarization (`summarise_event_df`, lines 91-109) -/

/-- The primary-summary loop of `summarise_event_df` (lines 93-95): for every
column of the table, the Quantile Summarizer's triple is unpacked by the
Python tuple assignment
`summary[f"{param}_lower"], summary[f"{param}_upper"], summary[param] = summarise_samples(...)`,
i.e. the first component goes to `<param>_lower`, the second to
`<param>_upper` and the third to the bare `<param>` key. -/
def primary_summary (t : Table) : Except Err (List (String × ℚ)) :=
  t.foldlM
    (fun summary p => do
      let (q1, q2, q3) ← summarise_samples p.2
      let summary := setKey summary (p.1 ++ "_lower") q1
      let summary := setKey summary (p.1 ++ "_upper") q2
      .ok (setKey summary p.1 q3))
    []

/-- The secondary-quantity loop of `summarise_event_df` (lines 97-103): for
each suffix position, recompute redshift from the summarized luminosity
distance via the external cosmology collaborator `z`, then the source-frame
value of each of the four mass keys from the summarized detector-frame value
and the just-stored redshift. -/
def summarise_secondary (z : ℚ → ℚ) (d0 : List (String × ℚ)) :
    Except Err (List (String × ℚ)) :=
  List.foldlM
    (fun d param_type => do
      let dl ← getNum d ("luminosity_distance" ++ param_type)
      let d := setKey d ("redshift" ++ param_type) (z dl)
      List.foldlM
        (fun d key => do
          let kv ← getNum d (key ++ param_type)
          let zv ← getNum d ("redshift" ++ param_type)
          .ok (setKey d (key ++ "_source" ++ param_type) (kv / (1 + zv))))
        d ["mass_1", "mass_2", "chirp_mass", "total_mass"])
    d0 ["_lower", "_upper", ""]

/-- Lines 92-103 of `summarise_event_df`: the full computed summary mapping,
before published-key filtering. -/
def summarise_event_core (z : ℚ → ℚ) (event_df : Table) :
    Except Err (List (String × ℚ)) := do
  let summary ← primary_summary event_df
  summarise_secondary z summary

/-- A JSON-compatible summary value: a number, a string, or `null`. -/
inductive JVal where
  | num (q : ℚ)
  | str (s : String)
  | null
deriving DecidableEq, Repr

/-- The function `summarise_event_df` (lines 91-109): compute the summary mapping, filter
it down to the published key set via
`summary = {k: summary.get(k, None) for k in GWOSC_KEYS}` (an absent key
becomes `null`), then attach `version = 1`. -/
def summarise_event_df (z : ℚ → ℚ) (event_df : Table) :
    Except Err (List (String × JVal)) := do
  let summary ← summarise_event_core z event_df
  let filtered := GWOSC_KEYS.map
    (fun k =>
      (k, match List.lookup k summary with
          | some q => JVal.num q
          | none => JVal.null))
  .ok (setKey filtered "version" (JVal.num 1))

/-- The function `summarise_all_events` (lines 49-55): summarise every event table and
attach `commonName = event_name` to each record, keyed by event name. -/
def summarise_all_events (z : ℚ → ℚ)
    (events_samples_dict : List (String × Table)) :
    Except Err (List (String × List (String × JVal))) :=
  events_samples_dict.foldlM
    (fun summary_dict ev => do
      let event_summary_dict ← summarise_event_df z ev.2
      let event_summary_dict :=
        setKey event_summary_dict "commonName" (JVal.str ev.1)
      .ok (setKey summary_dict ev.1 event_summary_dict))
    []

/-! ## Event-name derivation (`load_event_samples_to_dataframes`,
lines 61-69) -/

/-- Python `s.split(sep)` for a nonempty separator, on character lists,
with explicit recursion fuel (any fuel of at least the input's length gives
the true splitting; the fuel makes the recursion structural). -/
def pySplitFuel (sep : List Char) : Nat → List Char → List (List Char)
  | _, [] => [[]]
  | 0, s => [s]
  | fuel + 1, c :: rest =>
    if sep.isPrefixOf (c :: rest) ∧ sep ≠ [] then
      [] :: pySplitFuel sep fuel (List.drop (sep.length - 1) rest)
    else
      match pySplitFuel sep fuel rest with
      | [] => [[c]]
      | seg :: segs => (c :: seg) :: segs

/-- Python `s.split(sep)` for a nonempty separator, on character lists:
the list of maximal separator-free segments. -/
def pySplit (sep : List Char) (s : List Char) : List (List Char) :=
  pySplitFuel sep s.length s

/-- The prefix of a string before the first occurrence of a (nonempty)
pattern: the spec's "truncating at the first occurrence". -/
def takeBeforeFirst (pat : List Char) : List Char → List Char
  | [] => []
  | c :: rest =>
    if pat.isPrefixOf (c :: rest) then []
    else c :: takeBeforeFirst pat rest

/-- Python `os.path.basename`: the segment after the last `/`. -/
def basename (p : String) : String :=
  String.mk ((pySplit ['/'] p.data).getLastD [])

/-- Lines 63-64: `event_name = os.path.basename(file).split(".h")[0]` then
`event_name = event_name.split("_")[0]` — the event name under which the
catalogue keys each event's samples and summary record. -/
def event_name_of_file (file : String) : String :=
  let event_name := String.mk ((pySplit ['.', 'h'] (basename file).data).headD [])
  String.mk ((pySplit ['_'] event_name.data).headD [])


/-! ## Object identity (explicit-state rendering of the Python heap)

pandas column assignment `samples[...] = ...` mutates the `DataFrame` object
the caller passed in, while `df.copy()` allocates a fresh object.  To state
this frame effect, tables live in a `Store` (the heap) and functions receive
a reference (index) instead of a value. -/

/-- The heap: every allocated `DataFrame`, addressed by index. -/
abbrev Store := List Table

/-- The function `standardise_samples` as a heap program: reads the referenced table,
updates it in place (all column assignments, and the modelled
`sort_parameters` reorder, act on the same object), and returns the same
reference. -/
def standardise_samples_prog (z : ℚ → ℚ) (st : Store) (r : Nat) :
    Except Err (Store × Nat) := do
  let t' ← standardise_samples z (st.getD r [])
  .ok (st.set r t', r)

/-- The function `convert_df_to_gwosc_df` as a heap program: `df.copy()` allocates a fresh
object, all assignments act on the copy, and the reference to the fresh
object is returned; the argument's slot is untouched. -/
def convert_df_to_gwosc_df_prog (st : Store) (r : Nat) :
    Except Err (Store × Nat) := do
  let t' ← convert_df_to_gwosc_df (st.getD r [])
  .ok (st ++ [t'], st.length)

/-! ## Lookup is invariant under the canonical reorder -/

theorem lookup_append {α : Type} (k : String) (l₁ l₂ : List (String × α)) :
    List.lookup k (l₁ ++ l₂) =
      match List.lookup k l₁ with
      | some v => some v
      | none => List.lookup k l₂ := by
  induction l₁ with
  | nil => simp
  | cons p rest ih =>
    cases p with
    | mk a b =>
      by_cases h : k = a
      · simp [h]
      · simp [h, ih]

theorem lookup_eq_find?_map (t : Table) (n : String) :
    List.lookup n t = (t.find? (fun p => p.1 == n)).map Prod.snd := by
  induction t with
  | nil => simp
  | cons p rest ih =>
    cases p with
    | mk a b =>
      by_cases h : n = a
      · simp [List.find?, h]
      · have hb : (a == n) = false := beq_eq_false_iff_ne.mpr (fun he => h he.symm)
        simp [List.find?, h, hb, ih]

theorem find?_key_eq {t : Table} {n : String} {p : String × Col}
    (h : t.find? (fun q => q.1 == n) = some p) : p.1 = n := by
  have := List.find?_some h
  exact beq_iff_eq.mp this

theorem lookup_filterMap_find?_of_mem (t : Table) (R : List String) (n : String)
    (hn : n ∈ R) :
    List.lookup n (R.filterMap (fun m => t.find? (fun p => p.1 == m))) =
      List.lookup n t := by
  induction R with
  | nil => simp at hn
  | cons m R' ih =>
    rcases hfm : t.find? (fun p => p.1 == m) with - | p
    · simp only [List.filterMap_cons, hfm]
      by_cases hmn : m = n
      · subst hmn
        have hnone : List.lookup m t = none := by
          rw [lookup_eq_find?_map, hfm]; rfl
        rw [hnone]
        -- no block entry can carry the key `m` since `find?` found none
        clear hn ih
        induction R' with
        | nil => simp
        | cons m' R'' ih' =>
          rcases hfm' : t.find? (fun p => p.1 == m') with - | q
          · simpa [List.filterMap_cons, hfm'] using ih'
          · have hq : q.1 = m' := find?_key_eq hfm'
            have hne : ¬ m = m' := by
              intro he; rw [he] at hfm; rw [hfm] at hfm'; cases hfm'
            simp only [List.filterMap_cons, hfm']
            cases q with
            | mk a b =>
              simp only at hq
              subst hq
              simpa [hne] using ih'
      · have hn' : n ∈ R' := by
          rcases List.mem_cons.mp hn with h | h
          · exact absurd h.symm hmn
          · exact h
        simpa [List.filterMap_cons, hfm] using ih hn'
    · have hp : p.1 = m := find?_key_eq hfm
      simp only [List.filterMap_cons, hfm]
      by_cases hmn : n = m
      · subst hmn
        cases p with
        | mk a b =>
          simp only at hp
          subst hp
          simp [lookup_eq_find?_map, hfm]
      · have hn' : n ∈ R' := by
          rcases List.mem_cons.mp hn with h | h
          · exact absurd h hmn
          · exact h
        cases p with
        | mk a b =>
          simp only at hp
          subst hp
          simp only [lookup_cons, if_neg hmn]
          exact ih hn'

theorem lookup_filterMap_find?_of_not_mem (t : Table) (R : List String) (n : String)
    (hn : ¬ n ∈ R) :
    List.lookup n (R.filterMap (fun m => t.find? (fun p => p.1 == m))) = none := by
  induction R with
  | nil => simp
  | cons m R' ih =>
    have hnm : ¬ n = m := fun he => hn (by simp [he])
    have hn' : ¬ n ∈ R' := fun hm => hn (by simp [hm])
    rcases hfm : t.find? (fun p => p.1 == m) with - | p
    · simpa [List.filterMap_cons, hfm] using ih hn'
    · have hp : p.1 = m := find?_key_eq hfm
      cases p with
      | mk a b =>
        simp only at hp
        subst hp
        simp only [List.filterMap_cons, hfm]
        simpa [hnm] using ih hn'

theorem lookup_filter_not_mem (t : Table) (R : List String) (n : String)
    (hn : ¬ n ∈ R) :
    List.lookup n (t.filter (fun p => !(R.contains p.1))) = List.lookup n t := by
  induction t with
  | nil => simp
  | cons p rest ih =>
    cases p with
    | mk a b =>
      by_cases hm : a ∈ R
      · have hna : ¬ n = a := fun he => hn (he ▸ hm)
        rw [List.filter_cons, if_neg (by simp [hm] : ¬ ((!(R.contains (a, b).1)) = true))]
        rw [lookup_cons, if_neg hna]
        exact ih
      · rw [List.filter_cons, if_pos (by simp [hm] : ((!(R.contains (a, b).1)) = true))]
        by_cases hna : n = a
        · rw [lookup_cons, lookup_cons, if_pos hna, if_pos hna]
        · rw [lookup_cons, lookup_cons, if_neg hna, if_neg hna]
          exact ih

theorem lookup_filter_mem (t : Table) (R : List String) (n : String)
    (hn : n ∈ R) :
    List.lookup n (t.filter (fun p => !(R.contains p.1))) = none := by
  induction t with
  | nil => simp
  | cons p rest ih =>
    cases p with
    | mk a b =>
      by_cases hm : a ∈ R
      · rw [List.filter_cons, if_neg (by simp [hm] : ¬ ((!(R.contains (a, b).1)) = true))]
        exact ih
      · have hna : ¬ n = a := fun he => hm (he ▸ hn)
        rw [List.filter_cons, if_pos (by simp [hm] : ((!(R.contains (a, b).1)) = true))]
        rw [lookup_cons, if_neg hna]
        exact ih

theorem lookup_sort_parameters (t : Table) (n : String) :
    List.lookup n (sort_parameters t) = List.lookup n t := by
  unfold sort_parameters
  rw [lookup_append]
  by_cases hn : n ∈ REQUIRED_PARAMETERS
  · rw [lookup_filterMap_find?_of_mem t REQUIRED_PARAMETERS n hn]
    rcases h : List.lookup n t with - | v
    · simpa [h] using lookup_filter_mem t REQUIRED_PARAMETERS n hn
    · simp [h]
  · rw [lookup_filterMap_find?_of_not_mem t REQUIRED_PARAMETERS n hn]
    exact lookup_filter_not_mem t REQUIRED_PARAMETERS n hn

theorem getCol?_sort_parameters (t : Table) (n : String) :
    getCol? (sort_parameters t) n = getCol? t n :=
  lookup_sort_parameters t n

theorem hasCol_sort_parameters (t : Table) (n : String) :
    hasCol (sort_parameters t) n = hasCol t n := by
  simp [hasCol, getCol?_sort_parameters]

/-! ## The happy path of `standardise_samples` -/

theorem hasCol_exists {t : Table} {n : String} (h : hasCol t n = true) :
    ∃ c, getCol? t n = some c :=
  Option.isSome_iff_exists.mp h

/-- The table produced by the body of `standardise_samples` when every
source-column read succeeds with the given column values (the happy path of
`standardise_samples_core`, spelled out). -/
def standardised_core_table (z : ℚ → ℚ) (t : Table)
    (dl m1 m2 s1 s2 ct1 ct2 ra de : Col) : Table :=
  let zs := dl.map z
  let m1s := List.zipWith (fun m zv => m / (1 + zv)) m1 zs
  let m2s := List.zipWith (fun m zv => m / (1 + zv)) m2 zs
  let u := setKey t "luminosity_distance" dl
  let u := setKey u "redshift" zs
  let u := setKey u "mass_1_source" m1s
  let u := setKey u "a_1" s1
  let u := setKey u "cos_tilt_1" ct1
  let u := setKey u "spin_1z" ct1
  let u := setKey u "mass_2_source" m2s
  let u := setKey u "a_2" s2
  let u := setKey u "cos_tilt_2" ct2
  let u := setKey u "spin_2z" ct2
  let u := setKey u "mass_ratio" (List.zipWith (· / ·) m2s m1s)
  let u := setKey u "ra" ra
  let u := setKey u "dec" de
  let u := setKey u "chi_eff" (List.zipWith (· / ·)
    (List.zipWith (· + ·) (List.zipWith (· * ·) m1s ct1)
      (List.zipWith (· * ·) m2s ct2))
    (List.zipWith (· + ·) m1s m2s))
  let u := setKey u "incl" (List.replicate (nrows u) 0)
  let u := setKey u "phi_12" (List.replicate (nrows u) 0)
  let u := setKey u "phi_jl" (List.replicate (nrows u) 0)
  setKey u "geocent_time" (List.replicate (nrows u) 0)

theorem standardise_samples_core_eq (z : ℚ → ℚ) (t : Table)
    (dl m1 m2 s1 s2 ct1 ct2 ra de : Col)
    (h1 : getCol? t "luminosity_distance_Mpc" = some dl)
    (h2 : getCol? t "m1_detector_frame_Msun" = some m1)
    (h3 : getCol? t "m2_detector_frame_Msun" = some m2)
    (h4 : getCol? t "spin1" = some s1)
    (h5 : getCol? t "spin2" = some s2)
    (h6 : getCol? t "costilt1" = some ct1)
    (h7 : getCol? t "costilt2" = some ct2)
    (h8 : getCol? t "right_ascension" = some ra)
    (h9 : getCol? t "declination" = some de) :
    standardise_samples_core z t =
      .ok (standardised_core_table z t dl m1 m2 s1 s2 ct1 ct2 ra de) := by
  simp only [getCol?] at h1 h2 h3 h4 h5 h6 h7 h8 h9
  simp [standardise_samples_core, add_aligned_component_spins, getCol, getCol?,
    standardised_core_table, h1, h2, h3, h4, h5, h6, h7, h8, h9]

theorem standardise_samples_eq (z : ℚ → ℚ) (t : Table)
    (dl m1 m2 s1 s2 ct1 ct2 ra de : Col)
    (h1 : getCol? t "luminosity_distance_Mpc" = some dl)
    (h2 : getCol? t "m1_detector_frame_Msun" = some m1)
    (h3 : getCol? t "m2_detector_frame_Msun" = some m2)
    (h4 : getCol? t "spin1" = some s1)
    (h5 : getCol? t "spin2" = some s2)
    (h6 : getCol? t "costilt1" = some ct1)
    (h7 : getCol? t "costilt2" = some ct2)
    (h8 : getCol? t "right_ascension" = some ra)
    (h9 : getCol? t "declination" = some de) :
    standardise_samples z t =
      .ok (sort_parameters
        (standardised_core_table z t dl m1 m2 s1 s2 ct1 ct2 ra de)) := by
  rw [standardise_samples,
    standardise_samples_core_eq z t dl m1 m2 s1 s2 ct1 ct2 ra de
      h1 h2 h3 h4 h5 h6 h7 h8 h9]
  rfl

theorem hasCol_false {t : Table} {n : String} (h : hasCol t n = false) :
    getCol? t n = none := by
  cases hg : getCol? t n with
  | none => rfl
  | some c => rw [hasCol, hg] at h; cases h

/-- The Canonical Parameter Set without the detector-frame mass names
`mass_1`, `mass_2` (which `standardise_samples` never creates). -/
def CANONICAL_WITHOUT_DETECTOR_MASSES : List String :=
  ["mass_1_source", "mass_2_source", "mass_ratio",
   "luminosity_distance", "redshift", "ra", "dec", "a_1", "a_2",
   "cos_tilt_1", "cos_tilt_2", "spin_1z", "spin_2z", "incl", "phi_12",
   "phi_jl", "geocent_time"]

theorem hasCol_standardised_core (z : ℚ → ℚ) (t : Table)
    (dl m1 m2 s1 s2 ct1 ct2 ra de : Col) (n : String)
    (hn : n ∈ CANONICAL_WITHOUT_DETECTOR_MASSES) :
    hasCol (standardised_core_table z t dl m1 m2 s1 s2 ct1 ct2 ra de) n = true := by
  simp only [CANONICAL_WITHOUT_DETECTOR_MASSES, List.mem_cons,
    List.not_mem_nil, or_false] at hn
  rcases hn with rfl | rfl | rfl | rfl | rfl | rfl | rfl | rfl | rfl | rfl | rfl |
    rfl | rfl | rfl | rfl | rfl | rfl <;>
    simp [hasCol, getCol?, standardised_core_table]

/-- A concrete raw LVC GWTC-1 posterior table carrying every column of
`SEARCH_PARAMS`, one posterior draw per column. -/
def exRawTable : Table :=
  [("luminosity_distance_Mpc", [100]),
   ("m1_detector_frame_Msun", [30]),
   ("m2_detector_frame_Msun", [20]),
   ("right_ascension", [1]),
   ("declination", [1]),
   ("costheta_jn", [0]),
   ("spin1", [1/2]),
   ("costilt1", [1]),
   ("spin2", [1/2]),
   ("costilt2", [1])]

/-- A concrete stand-in for the external redshift collaborator. -/
def exZ : ℚ → ℚ := fun d => d / 100

/-- C1, counterexample: on a raw table carrying all of the parser's source
columns, `standardise_samples` succeeds but its output has no `mass_1`
column (nor `mass_2`), so the output does not contain every name of the
Canonical Parameter Set. -/
theorem c1_schema_counterexample :
    (∀ c ∈ SEARCH_PARAMS_KEYS, hasCol exRawTable c = true) ∧
    (standardise_samples exZ exRawTable).map (fun T => hasCol T "mass_1") =
      .ok false ∧
    (standardise_samples exZ exRawTable).map (fun T => hasCol T "mass_2") =
      .ok false := by
  refine ⟨by decide, ?_, ?_⟩ <;> rfl

/-- C1 (amended): for every raw table containing the parser's required
source columns, `standardise_samples` succeeds and its output contains every
name of the Canonical Parameter Set **except** `mass_1` and `mass_2` as a
column (the detector-frame masses stay under their source names). -/
theorem c1_schema_completeness_amended (z : ℚ → ℚ) (t : Table)
    (hreq : ∀ c ∈ SEARCH_PARAMS_KEYS, hasCol t c = true) :
    ∃ T, standardise_samples z t = .ok T ∧
      ∀ n ∈ CANONICAL_WITHOUT_DETECTOR_MASSES, hasCol T n = true := by
  obtain ⟨dl, h1⟩ := hasCol_exists (hreq "luminosity_distance_Mpc" (by decide))
  obtain ⟨m1, h2⟩ := hasCol_exists (hreq "m1_detector_frame_Msun" (by decide))
  obtain ⟨m2, h3⟩ := hasCol_exists (hreq "m2_detector_frame_Msun" (by decide))
  obtain ⟨s1, h4⟩ := hasCol_exists (hreq "spin1" (by decide))
  obtain ⟨s2, h5⟩ := hasCol_exists (hreq "spin2" (by decide))
  obtain ⟨ct1, h6⟩ := hasCol_exists (hreq "costilt1" (by decide))
  obtain ⟨ct2, h7⟩ := hasCol_exists (hreq "costilt2" (by decide))
  obtain ⟨ra, h8⟩ := hasCol_exists (hreq "right_ascension" (by decide))
  obtain ⟨de, h9⟩ := hasCol_exists (hreq "declination" (by decide))
  refine ⟨_, standardise_samples_eq z t dl m1 m2 s1 s2 ct1 ct2 ra de
    h1 h2 h3 h4 h5 h6 h7 h8 h9, ?_⟩
  intro n hn
  rw [hasCol_sort_parameters]
  exact hasCol_standardised_core z t dl m1 m2 s1 s2 ct1 ct2 ra de n hn

/-- C1 witness for the amended theorem, at the concrete raw table. -/
theorem c1_schema_completeness_amended_witness :
    ∃ T, standardise_samples exZ exRawTable = .ok T ∧
      ∀ n ∈ CANONICAL_WITHOUT_DETECTOR_MASSES, hasCol T n = true :=
  c1_schema_completeness_amended exZ exRawTable (by decide)

/-- C5: `standardise_samples` copies the spin magnitudes `spin1`, `spin2` to
`a_1`, `a_2`, copies `costilt1`, `costilt2` to `cos_tilt_1`, `cos_tilt_2`,
and populates the aligned components `spin_1z`, `spin_2z` directly from the
cosine-tilt columns (not from the product of magnitude and cosine-tilt). -/
theorem c5_spin_columns (z : ℚ → ℚ) (t : Table)
    (hreq : ∀ c ∈ STANDARDISE_SOURCE_COLUMNS, hasCol t c = true) :
    ∃ T, standardise_samples z t = .ok T ∧
      getCol? T "a_1" = getCol? t "spin1" ∧
      getCol? T "a_2" = getCol? t "spin2" ∧
      getCol? T "cos_tilt_1" = getCol? t "costilt1" ∧
      getCol? T "cos_tilt_2" = getCol? t "costilt2" ∧
      getCol? T "spin_1z" = getCol? t "costilt1" ∧
      getCol? T "spin_2z" = getCol? t "costilt2" := by
  obtain ⟨dl, h1⟩ := hasCol_exists (hreq "luminosity_distance_Mpc" (by decide))
  obtain ⟨m1, h2⟩ := hasCol_exists (hreq "m1_detector_frame_Msun" (by decide))
  obtain ⟨m2, h3⟩ := hasCol_exists (hreq "m2_detector_frame_Msun" (by decide))
  obtain ⟨s1, h4⟩ := hasCol_exists (hreq "spin1" (by decide))
  obtain ⟨s2, h5⟩ := hasCol_exists (hreq "spin2" (by decide))
  obtain ⟨ct1, h6⟩ := hasCol_exists (hreq "costilt1" (by decide))
  obtain ⟨ct2, h7⟩ := hasCol_exists (hreq "costilt2" (by decide))
  obtain ⟨ra, h8⟩ := hasCol_exists (hreq "right_ascension" (by decide))
  obtain ⟨de, h9⟩ := hasCol_exists (hreq "declination" (by decide))
  refine ⟨_, standardise_samples_eq z t dl m1 m2 s1 s2 ct1 ct2 ra de
    h1 h2 h3 h4 h5 h6 h7 h8 h9, ?_, ?_, ?_, ?_, ?_, ?_⟩ <;>
    rw [getCol?_sort_parameters] <;>
    simp [standardised_core_table, getCol?] <;>
    first
      | exact h4.symm
      | exact h5.symm
      | exact h6.symm
      | exact h7.symm

/-- C5 witness: the spin-copy equations at a concrete raw table. -/
theorem c5_spin_columns_witness :
    ∃ T, standardise_samples exZ exRawTable = .ok T ∧
      getCol? T "a_1" = getCol? exRawTable "spin1" ∧
      getCol? T "a_2" = getCol? exRawTable "spin2" ∧
      getCol? T "cos_tilt_1" = getCol? exRawTable "costilt1" ∧
      getCol? T "cos_tilt_2" = getCol? exRawTable "costilt2" ∧
      getCol? T "spin_1z" = getCol? exRawTable "costilt1" ∧
      getCol? T "spin_2z" = getCol? exRawTable "costilt2" :=
  c5_spin_columns exZ exRawTable (by decide)

/-- C6: in the table returned by `standardise_samples`, `mass_ratio` is the
row-wise quotient `mass_2_source / mass_1_source`, and on every row where
both source-frame masses are positive with `mass_1_source ≥ mass_2_source`
the ratio lies in `(0, 1]`. -/
theorem c6_mass_ratio (z : ℚ → ℚ) (t : Table)
    (hreq : ∀ c ∈ STANDARDISE_SOURCE_COLUMNS, hasCol t c = true) :
    ∃ T m1s m2s, standardise_samples z t = .ok T ∧
      getCol? T "mass_1_source" = some m1s ∧
      getCol? T "mass_2_source" = some m2s ∧
      getCol? T "mass_ratio" = some (List.zipWith (· / ·) m2s m1s) ∧
      ∀ i, i < (List.zipWith (· / ·) m2s m1s).length →
        0 < m2s.getD i 0 → 0 < m1s.getD i 0 → m2s.getD i 0 ≤ m1s.getD i 0 →
        0 < (List.zipWith (· / ·) m2s m1s).getD i 0 ∧
          (List.zipWith (· / ·) m2s m1s).getD i 0 ≤ 1 := by
  obtain ⟨dl, h1⟩ := hasCol_exists (hreq "luminosity_distance_Mpc" (by decide))
  obtain ⟨m1, h2⟩ := hasCol_exists (hreq "m1_detector_frame_Msun" (by decide))
  obtain ⟨m2, h3⟩ := hasCol_exists (hreq "m2_detector_frame_Msun" (by decide))
  obtain ⟨s1, h4⟩ := hasCol_exists (hreq "spin1" (by decide))
  obtain ⟨s2, h5⟩ := hasCol_exists (hreq "spin2" (by decide))
  obtain ⟨ct1, h6⟩ := hasCol_exists (hreq "costilt1" (by decide))
  obtain ⟨ct2, h7⟩ := hasCol_exists (hreq "costilt2" (by decide))
  obtain ⟨ra, h8⟩ := hasCol_exists (hreq "right_ascension" (by decide))
  obtain ⟨de, h9⟩ := hasCol_exists (hreq "declination" (by decide))
  refine ⟨_, List.zipWith (fun m zv => m / (1 + zv)) m1 (dl.map z),
    List.zipWith (fun m zv => m / (1 + zv)) m2 (dl.map z),
    standardise_samples_eq z t dl m1 m2 s1 s2 ct1 ct2 ra de
      h1 h2 h3 h4 h5 h6 h7 h8 h9, ?_, ?_, ?_, ?_⟩
  · rw [getCol?_sort_parameters]
    simp [standardised_core_table, getCol?]
  · rw [getCol?_sort_parameters]
    simp [standardised_core_table, getCol?]
  · rw [getCol?_sort_parameters]
    simp [standardised_core_table, getCol?]
  · intro i hi hpos2 hpos1 hle
    have hlen2 : i < (List.zipWith (fun m zv => m / (1 + zv)) m2 (dl.map z)).length := by
      simp only [List.length_zipWith] at hi ⊢
      omega
    have hlen1 : i < (List.zipWith (fun m zv => m / (1 + zv)) m1 (dl.map z)).length := by
      simp only [List.length_zipWith] at hi ⊢
      omega
    rw [List.getD_eq_getElem _ _ hi, List.getElem_zipWith]
    rw [List.getD_eq_getElem _ _ hlen2] at hpos2 hle
    rw [List.getD_eq_getElem _ _ hlen1] at hpos1 hle
    exact ⟨div_pos hpos2 hpos1, (div_le_one hpos1).mpr hle⟩

/-- C6 witness: the mass-ratio characterization at a concrete raw table. -/
theorem c6_mass_ratio_witness :
    ∃ T m1s m2s, standardise_samples exZ exRawTable = .ok T ∧
      getCol? T "mass_1_source" = some m1s ∧
      getCol? T "mass_2_source" = some m2s ∧
      getCol? T "mass_ratio" = some (List.zipWith (· / ·) m2s m1s) ∧
      ∀ i, i < (List.zipWith (· / ·) m2s m1s).length →
        0 < m2s.getD i 0 → 0 < m1s.getD i 0 → m2s.getD i 0 ≤ m1s.getD i 0 →
        0 < (List.zipWith (· / ·) m2s m1s).getD i 0 ∧
          (List.zipWith (· / ·) m2s m1s).getD i 0 ≤ 1 :=
  c6_mass_ratio exZ exRawTable (by decide)

/-- C7: if exactly one of the standardization steps' required source columns
is absent from the input table, `standardise_samples` fails with a `KeyError`
(the spec's `MissingColumn`) identifying that absent column. -/
theorem c7_missing_column (z : ℚ → ℚ) (t : Table) (c : String)
    (hmem : c ∈ STANDARDISE_SOURCE_COLUMNS)
    (hc : hasCol t c = false)
    (hother : ∀ c' ∈ STANDARDISE_SOURCE_COLUMNS, c' ≠ c → hasCol t c' = true) :
    standardise_samples z t = .error (.keyError c) := by
  simp only [STANDARDISE_SOURCE_COLUMNS, List.mem_cons, List.not_mem_nil,
    or_false] at hmem
  have hnone := hasCol_false hc
  simp only [getCol?] at hnone
  rcases hmem with rfl | rfl | rfl | rfl | rfl | rfl | rfl | rfl | rfl
  · -- luminosity_distance_Mpc missing: the very first read fails
    simp [standardise_samples, standardise_samples_core, getCol, getCol?, hnone]
  · -- m1_detector_frame_Msun missing
    obtain ⟨dl, h1⟩ := hasCol_exists (hother "luminosity_distance_Mpc" (by decide) (by decide))
    simp only [getCol?] at h1
    simp [standardise_samples, standardise_samples_core, getCol, getCol?, h1, hnone]
  · -- m2_detector_frame_Msun missing
    obtain ⟨dl, h1⟩ := hasCol_exists (hother "luminosity_distance_Mpc" (by decide) (by decide))
    obtain ⟨m1, h2⟩ := hasCol_exists (hother "m1_detector_frame_Msun" (by decide) (by decide))
    obtain ⟨s1, h4⟩ := hasCol_exists (hother "spin1" (by decide) (by decide))
    obtain ⟨ct1, h6⟩ := hasCol_exists (hother "costilt1" (by decide) (by decide))
    simp only [getCol?] at h1 h2 h4 h6
    simp [standardise_samples, standardise_samples_core, getCol, getCol?,
      h1, h2, h4, h6, hnone]
  · -- spin1 missing
    obtain ⟨dl, h1⟩ := hasCol_exists (hother "luminosity_distance_Mpc" (by decide) (by decide))
    obtain ⟨m1, h2⟩ := hasCol_exists (hother "m1_detector_frame_Msun" (by decide) (by decide))
    simp only [getCol?] at h1 h2
    simp [standardise_samples, standardise_samples_core, getCol, getCol?,
      h1, h2, hnone]
  · -- spin2 missing
    obtain ⟨dl, h1⟩ := hasCol_exists (hother "luminosity_distance_Mpc" (by decide) (by decide))
    obtain ⟨m1, h2⟩ := hasCol_exists (hother "m1_detector_frame_Msun" (by decide) (by decide))
    obtain ⟨m2, h3⟩ := hasCol_exists (hother "m2_detector_frame_Msun" (by decide) (by decide))
    obtain ⟨s1, h4⟩ := hasCol_exists (hother "spin1" (by decide) (by decide))
    obtain ⟨ct1, h6⟩ := hasCol_exists (hother "costilt1" (by decide) (by decide))
    simp only [getCol?] at h1 h2 h3 h4 h6
    simp [standardise_samples, standardise_samples_core, getCol, getCol?,
      h1, h2, h3, h4, h6, hnone]
  · -- costilt1 missing
    obtain ⟨dl, h1⟩ := hasCol_exists (hother "luminosity_distance_Mpc" (by decide) (by decide))
    obtain ⟨m1, h2⟩ := hasCol_exists (hother "m1_detector_frame_Msun" (by decide) (by decide))
    obtain ⟨s1, h4⟩ := hasCol_exists (hother "spin1" (by decide) (by decide))
    simp only [getCol?] at h1 h2 h4
    simp [standardise_samples, standardise_samples_core, getCol, getCol?,
      h1, h2, h4, hnone]
  · -- costilt2 missing
    obtain ⟨dl, h1⟩ := hasCol_exists (hother "luminosity_distance_Mpc" (by decide) (by decide))
    obtain ⟨m1, h2⟩ := hasCol_exists (hother "m1_detector_frame_Msun" (by decide) (by decide))
    obtain ⟨m2, h3⟩ := hasCol_exists (hother "m2_detector_frame_Msun" (by decide) (by decide))
    obtain ⟨s1, h4⟩ := hasCol_exists (hother "spin1" (by decide) (by decide))
    obtain ⟨s2, h5⟩ := hasCol_exists (hother "spin2" (by decide) (by decide))
    obtain ⟨ct1, h6⟩ := hasCol_exists (hother "costilt1" (by decide) (by decide))
    simp only [getCol?] at h1 h2 h3 h4 h5 h6
    simp [standardise_samples, standardise_samples_core, getCol, getCol?,
      h1, h2, h3, h4, h5, h6, hnone]
  · -- right_ascension missing
    obtain ⟨dl, h1⟩ := hasCol_exists (hother "luminosity_distance_Mpc" (by decide) (by decide))
    obtain ⟨m1, h2⟩ := hasCol_exists (hother "m1_detector_frame_Msun" (by decide) (by decide))
    obtain ⟨m2, h3⟩ := hasCol_exists (hother "m2_detector_frame_Msun" (by decide) (by decide))
    obtain ⟨s1, h4⟩ := hasCol_exists (hother "spin1" (by decide) (by decide))
    obtain ⟨s2, h5⟩ := hasCol_exists (hother "spin2" (by decide) (by decide))
    obtain ⟨ct1, h6⟩ := hasCol_exists (hother "costilt1" (by decide) (by decide))
    obtain ⟨ct2, h7⟩ := hasCol_exists (hother "costilt2" (by decide) (by decide))
    simp only [getCol?] at h1 h2 h3 h4 h5 h6 h7
    simp [standardise_samples, standardise_samples_core, getCol, getCol?,
      h1, h2, h3, h4, h5, h6, h7, hnone]
  · -- declination missing
    obtain ⟨dl, h1⟩ := hasCol_exists (hother "luminosity_distance_Mpc" (by decide) (by decide))
    obtain ⟨m1, h2⟩ := hasCol_exists (hother "m1_detector_frame_Msun" (by decide) (by decide))
    obtain ⟨m2, h3⟩ := hasCol_exists (hother "m2_detector_frame_Msun" (by decide) (by decide))
    obtain ⟨s1, h4⟩ := hasCol_exists (hother "spin1" (by decide) (by decide))
    obtain ⟨s2, h5⟩ := hasCol_exists (hother "spin2" (by decide) (by decide))
    obtain ⟨ct1, h6⟩ := hasCol_exists (hother "costilt1" (by decide) (by decide))
    obtain ⟨ct2, h7⟩ := hasCol_exists (hother "costilt2" (by decide) (by decide))
    obtain ⟨ra, h8⟩ := hasCol_exists (hother "right_ascension" (by decide) (by decide))
    simp only [getCol?] at h1 h2 h3 h4 h5 h6 h7 h8
    simp [standardise_samples, standardise_samples_core, getCol, getCol?,
      h1, h2, h3, h4, h5, h6, h7, h8, hnone]

/-- C7 witness: a raw table missing only `spin2` makes `standardise_samples`
fail with a `KeyError` naming `spin2`. -/
theorem c7_missing_column_witness :
    standardise_samples exZ
      (exRawTable.filter (fun p => !(p.1 == "spin2"))) =
      .error (.keyError "spin2") :=
  c7_missing_column exZ (exRawTable.filter (fun p => !(p.1 == "spin2")))
    "spin2" (by decide) (by decide) (by decide)

/-- The table produced by `convert_df_to_gwosc_df` when every source-column
read succeeds with the given column values. -/
def converted_gwosc_table (t : Table) (m1 m2 ra de : Col) : Table :=
  let u := setKey t "mass_1" m1
  let u := setKey u "mass_2" m2
  let u := setKey u "mass_ratio" (List.zipWith (· / ·) m2 m1)
  let u := setKey u "ra" ra
  setKey u "dec" de

theorem convert_df_to_gwosc_df_eq (t : Table) (m1 m2 ra de : Col)
    (h2 : getCol? t "m1_detector_frame_Msun" = some m1)
    (h3 : getCol? t "m2_detector_frame_Msun" = some m2)
    (h8 : getCol? t "right_ascension" = some ra)
    (h9 : getCol? t "declination" = some de) :
    convert_df_to_gwosc_df t = .ok (converted_gwosc_table t m1 m2 ra de) := by
  simp only [getCol?] at h2 h3 h8 h9
  simp [convert_df_to_gwosc_df, converted_gwosc_table, getCol, getCol?,
    h2, h3, h8, h9]

/-- C10: `standardise_samples` works in place — as a heap program it returns
the very reference it was given, whose contents now differ from the caller's
raw table — while `convert_df_to_gwosc_df` copies: it returns a fresh
reference and leaves the argument's heap slot unchanged. -/
theorem c10_object_identity (z : ℚ → ℚ) (st : Store) (r : Nat)
    (hr : r < st.length)
    (hreq : ∀ c ∈ SEARCH_PARAMS_KEYS, hasCol (st.getD r []) c = true)
    (hnoz : hasCol (st.getD r []) "redshift" = false) :
    (∃ st' T, standardise_samples_prog z st r = .ok (st', r) ∧
      standardise_samples z (st.getD r []) = .ok T ∧
      st'[r]? = some T ∧ ¬ st'[r]? = some (st.getD r [])) ∧
    (∃ st'' T, convert_df_to_gwosc_df_prog st r = .ok (st'', st.length) ∧
      convert_df_to_gwosc_df (st.getD r []) = .ok T ∧
      ¬ st.length = r ∧ st''[r]? = some (st.getD r []) ∧
      st''[st.length]? = some T) := by
  obtain ⟨dl, h1⟩ := hasCol_exists (hreq "luminosity_distance_Mpc" (by decide))
  obtain ⟨m1, h2⟩ := hasCol_exists (hreq "m1_detector_frame_Msun" (by decide))
  obtain ⟨m2, h3⟩ := hasCol_exists (hreq "m2_detector_frame_Msun" (by decide))
  obtain ⟨s1, h4⟩ := hasCol_exists (hreq "spin1" (by decide))
  obtain ⟨s2, h5⟩ := hasCol_exists (hreq "spin2" (by decide))
  obtain ⟨ct1, h6⟩ := hasCol_exists (hreq "costilt1" (by decide))
  obtain ⟨ct2, h7⟩ := hasCol_exists (hreq "costilt2" (by decide))
  obtain ⟨ra, h8⟩ := hasCol_exists (hreq "right_ascension" (by decide))
  obtain ⟨de, h9⟩ := hasCol_exists (hreq "declination" (by decide))
  have heq := standardise_samples_eq z (st.getD r []) dl m1 m2 s1 s2 ct1 ct2 ra de
    h1 h2 h3 h4 h5 h6 h7 h8 h9
  have heq2 := convert_df_to_gwosc_df_eq (st.getD r []) m1 m2 ra de h2 h3 h8 h9
  constructor
  · refine ⟨_, _, ?_, heq, List.getElem?_set_self hr, ?_⟩
    · simp only [standardise_samples_prog]
      rw [heq]
      rfl
    · rw [List.getElem?_set_self hr]
      intro hcontra
      have hT : sort_parameters
          (standardised_core_table z (st.getD r []) dl m1 m2 s1 s2 ct1 ct2 ra de) =
          st.getD r [] := by
        exact Option.some.inj hcontra
      have hz : hasCol (sort_parameters
          (standardised_core_table z (st.getD r []) dl m1 m2 s1 s2 ct1 ct2 ra de))
          "redshift" = true := by
        rw [hasCol_sort_parameters]
        exact hasCol_standardised_core z (st.getD r []) dl m1 m2 s1 s2 ct1 ct2 ra de
          "redshift" (by decide)
      rw [hT, hnoz] at hz
      cases hz
  · refine ⟨_, _, ?_, heq2, by omega, ?_, List.getElem?_concat_length _ _⟩
    · simp only [convert_df_to_gwosc_df_prog]
      rw [heq2]
      rfl
    · rw [List.getElem?_append_left hr]
      rw [List.getElem?_eq_getElem hr, List.getD_eq_getElem _ _ hr]

/-- C10 witness: the frame effects at a concrete one-table heap. -/
theorem c10_object_identity_witness :
    (∃ st' T, standardise_samples_prog exZ [exRawTable] 0 = .ok (st', 0) ∧
      standardise_samples exZ ([exRawTable].getD 0 []) = .ok T ∧
      st'[0]? = some T ∧ ¬ st'[0]? = some ([exRawTable].getD 0 [])) ∧
    (∃ st'' T, convert_df_to_gwosc_df_prog [exRawTable] 0 =
        .ok (st'', [exRawTable].length) ∧
      convert_df_to_gwosc_df ([exRawTable].getD 0 []) = .ok T ∧
      ¬ [exRawTable].length = 0 ∧ st''[0]? = some ([exRawTable].getD 0 []) ∧
      st''[[exRawTable].length]? = some T) :=
  c10_object_identity exZ [exRawTable] 0 (by decide) (by decide) (by decide)

/-! ## String-key disjointness facts -/

theorem string_append_inj {a b s u : String} (h : a ++ s = b ++ u)
    (hl : s.data.length = u.data.length) : a = b ∧ s = u := by
  have hd : a.data ++ s.data = b.data ++ u.data := congrArg String.data h
  have hab : a.data.length = b.data.length := by
    have hlen := congrArg List.length hd
    simp only [List.length_append] at hlen
    omega
  obtain ⟨h1, h2⟩ := List.append_inj hd hab
  exact ⟨String.ext h1, String.ext h2⟩

theorem string_ne_self_append {a s : String} (hs : s.data.length ≠ 0) :
    ¬ a = a ++ s := by
  intro h
  have hd : a.data = a.data ++ s.data := congrArg String.data h
  have hlen := congrArg List.length hd
  simp only [List.length_append] at hlen
  omega

theorem string_no_append_eq (s t : String)
    (h : t.data.drop (t.data.length - s.data.length) ≠ s.data) :
    ∀ c : String, ¬ (c ++ s = t) := by
  intro c hc
  have hd : c.data ++ s.data = t.data := congrArg String.data hc
  have hlen : t.data.length = c.data.length + s.data.length := by
    rw [← hd, List.length_append]
  have hdrop : t.data.drop (t.data.length - s.data.length) = s.data := by
    have hc' : t.data.length - s.data.length = c.data.length := by omega
    rw [hc', ← hd]
    exact List.drop_left _ _
  exact h hdrop

/-! ## The primary-summary fold -/

/-- The primary-summary loop of lines 93-95 started from an arbitrary
accumulator (for reasoning by induction; `primary_summary` is the instance
with an empty accumulator). -/
def primary_fold (acc : List (String × ℚ)) (t : Table) :
    Except Err (List (String × ℚ)) :=
  t.foldlM
    (fun summary p => do
      let (q1, q2, q3) ← summarise_samples p.2
      let summary := setKey summary (p.1 ++ "_lower") q1
      let summary := setKey summary (p.1 ++ "_upper") q2
      .ok (setKey summary p.1 q3))
    acc

theorem primary_summary_eq_fold (t : Table) :
    primary_summary t = primary_fold [] t := rfl

@[simp] theorem primary_fold_nil (acc : List (String × ℚ)) :
    primary_fold acc [] = .ok acc := rfl

theorem primary_fold_cons (acc : List (String × ℚ)) (p : String × Col)
    (rest : Table) :
    primary_fold acc (p :: rest) = (do
      let (q1, q2, q3) ← summarise_samples p.2
      primary_fold
        (setKey (setKey (setKey acc (p.1 ++ "_lower") q1) (p.1 ++ "_upper") q2)
          p.1 q3) rest) := by
  rcases hs : summarise_samples p.2 with e | ⟨q1, q2, q3⟩ <;>
    simp [primary_fold, List.foldlM_cons, hs]

theorem summarise_samples_ok_of_ne {xs : Col} (h : xs ≠ []) :
    ∃ q1 q2 q3, summarise_samples xs = .ok (q1, q2, q3) := by
  rw [summarise_samples, if_neg (by simp [List.isEmpty_iff, h])]
  exact ⟨_, _, _, rfl⟩

theorem primary_fold_ok_of_nonempty (t : Table) (acc : List (String × ℚ))
    (h : ∀ p ∈ t, p.2 ≠ ([] : Col)) :
    ∃ d, primary_fold acc t = .ok d := by
  induction t generalizing acc with
  | nil => exact ⟨acc, rfl⟩
  | cons p rest ih =>
    obtain ⟨q1, q2, q3, hs⟩ := summarise_samples_ok_of_ne (h p (by simp))
    rw [primary_fold_cons, hs]
    exact ih _ (fun q hq => h q (by simp [hq]))

theorem primary_fold_preserves (t : Table) (acc d : List (String × ℚ))
    (h : primary_fold acc t = .ok d) (k : String)
    (hk : ∀ c ∈ keysOf t, ¬ k = c ∧ ¬ k = c ++ "_lower" ∧ ¬ k = c ++ "_upper") :
    List.lookup k d = List.lookup k acc := by
  induction t generalizing acc with
  | nil =>
    rw [primary_fold_nil] at h
    cases h
    rfl
  | cons p rest ih =>
    rw [primary_fold_cons] at h
    rcases hs : summarise_samples p.2 with e | ⟨q1, q2, q3⟩ <;> rw [hs] at h
    · cases h
    · simp only [ok_bind] at h
      obtain ⟨hk1, hk2, hk3⟩ := hk p.1 (by simp)
      have := ih _ h (fun c hc => hk c (by simp [hc]))
      rw [this]
      simp [hk1, hk2, hk3]

theorem primary_fold_keys (t : Table) (acc d : List (String × ℚ))
    (h : primary_fold acc t = .ok d) (k : String)
    (hd : (List.lookup k d).isSome = true) :
    (List.lookup k acc).isSome = true ∨
      ∃ c ∈ keysOf t, k = c ∨ k = c ++ "_lower" ∨ k = c ++ "_upper" := by
  induction t generalizing acc with
  | nil =>
    rw [primary_fold_nil] at h
    cases h
    exact Or.inl hd
  | cons p rest ih =>
    rw [primary_fold_cons] at h
    rcases hs : summarise_samples p.2 with e | ⟨q1, q2, q3⟩ <;> rw [hs] at h
    · cases h
    · simp only [ok_bind] at h
      rcases ih _ h with hacc | ⟨c, hc, hor⟩
      · by_cases e1 : k = p.1
        · exact Or.inr ⟨p.1, by simp, Or.inl e1⟩
        · by_cases e2 : k = p.1 ++ "_lower"
          · exact Or.inr ⟨p.1, by simp, Or.inr (Or.inl e2)⟩
          · by_cases e3 : k = p.1 ++ "_upper"
            · exact Or.inr ⟨p.1, by simp, Or.inr (Or.inr e3)⟩
            · simp only [lookup_setKey, if_neg e1, if_neg e2, if_neg e3] at hacc
              exact Or.inl hacc
      · exact Or.inr ⟨c, by simp [hc], hor⟩

theorem primary_fold_triple (t : Table) (acc d : List (String × ℚ))
    (h : primary_fold acc t = .ok d)
    (hnd : (keysOf t).Nodup)
    (hcl : ∀ c1 ∈ keysOf t, ∀ c2 ∈ keysOf t,
      ¬ c1 = c2 ++ "_lower" ∧ ¬ c1 = c2 ++ "_upper")
    (p : String) (c : Col) (hpc : (p, c) ∈ t)
    (q1 q2 q3 : ℚ) (hs : summarise_samples c = .ok (q1, q2, q3)) :
    List.lookup (p ++ "_lower") d = some q1 ∧
    List.lookup (p ++ "_upper") d = some q2 ∧
    List.lookup p d = some q3 := by
  induction t generalizing acc with
  | nil => simp at hpc
  | cons hd0 rest ih =>
    obtain ⟨a, b⟩ := hd0
    simp only [keysOf_cons] at hnd hcl
    rw [primary_fold_cons] at h
    rcases hsab : summarise_samples b with e | ⟨r1, r2, r3⟩ <;> rw [hsab] at h
    · cases h
    · simp only [ok_bind] at h
      rcases List.mem_cons.mp hpc with heq | hmem
      · injection heq with hp hcb
        subst hp
        subst hcb
        rw [hs] at hsab
        injection hsab with htrip
        injection htrip with hq1 htrip'
        injection htrip' with hq2 hq3
        subst hq1; subst hq2; subst hq3
        obtain ⟨hpnotin, hnd'⟩ := List.nodup_cons.mp hnd
        have hlu : ¬ (p ++ "_lower" = p ++ "_upper") := fun hk =>
          absurd (string_append_inj hk (by decide)).2 (by decide)
        have hlp : ¬ (p ++ "_lower" = p) := fun hk =>
          string_ne_self_append (by decide) hk.symm
        have hup : ¬ (p ++ "_upper" = p) := fun hk =>
          string_ne_self_append (by decide) hk.symm
        have pres_l : ∀ c2 ∈ keysOf rest, ¬ (p ++ "_lower") = c2 ∧
            ¬ (p ++ "_lower") = c2 ++ "_lower" ∧
            ¬ (p ++ "_lower") = c2 ++ "_upper" := by
          intro c2 hc2
          refine ⟨?_, ?_, ?_⟩
          · intro hk
            exact (hcl c2 (by simp [hc2]) p (by simp)).1 hk.symm
          · intro hk
            exact hpnotin (by rw [(string_append_inj hk (by decide)).1]; exact hc2)
          · intro hk
            exact absurd (string_append_inj hk (by decide)).2 (by decide)
        have pres_u : ∀ c2 ∈ keysOf rest, ¬ (p ++ "_upper") = c2 ∧
            ¬ (p ++ "_upper") = c2 ++ "_lower" ∧
            ¬ (p ++ "_upper") = c2 ++ "_upper" := by
          intro c2 hc2
          refine ⟨?_, ?_, ?_⟩
          · intro hk
            exact (hcl c2 (by simp [hc2]) p (by simp)).2 hk.symm
          · intro hk
            exact absurd (string_append_inj hk (by decide)).2 (by decide)
          · intro hk
            exact hpnotin (by rw [(string_append_inj hk (by decide)).1]; exact hc2)
        have pres_p : ∀ c2 ∈ keysOf rest, ¬ p = c2 ∧
            ¬ p = c2 ++ "_lower" ∧ ¬ p = c2 ++ "_upper" := by
          intro c2 hc2
          refine ⟨?_, ?_, ?_⟩
          · intro hk
            exact hpnotin (by rw [hk]; exact hc2)
          · exact (hcl p (by simp) c2 (by simp [hc2])).1
          · exact (hcl p (by simp) c2 (by simp [hc2])).2
        have e1 := primary_fold_preserves rest _ d h (p ++ "_lower") pres_l
        have e2 := primary_fold_preserves rest _ d h (p ++ "_upper") pres_u
        have e3 := primary_fold_preserves rest _ d h p pres_p
        refine ⟨?_, ?_, ?_⟩
        · rw [e1]
          simp only [lookup_setKey, if_neg hlp, if_neg hlu, if_pos rfl, if_true]
        · rw [e2]
          simp only [lookup_setKey, if_neg hup, if_pos rfl, if_true]
        · rw [e3]
          simp only [lookup_setKey, if_pos rfl, if_true]
      · have hnd' : (keysOf rest).Nodup := (List.nodup_cons.mp hnd).2
        have hcl' : ∀ c1 ∈ keysOf rest, ∀ c2 ∈ keysOf rest,
            ¬ c1 = c2 ++ "_lower" ∧ ¬ c1 = c2 ++ "_upper" :=
          fun c1 h1 c2 h2 => hcl c1 (by simp [h1]) c2 (by simp [h2])
        exact ih _ h hnd' hcl' hmem

/-! ## The secondary-summary loop -/

@[simp] theorem getNum_setKey (d : List (String × ℚ)) (k' k : String) (v : ℚ) :
    getNum (setKey d k v) k' = if k' = k then .ok v else getNum d k' := by
  by_cases h : k' = k <;> simp [getNum, h]

theorem getNum_ok_of_bind {d : List (String × ℚ)} {k : String}
    {f : ℚ → Except Err (List (String × ℚ))} {out : List (String × ℚ)}
    (h : (getNum d k >>= f) = .ok out) :
    ∃ q, List.lookup k d = some q ∧ f q = .ok out := by
  rcases hg : List.lookup k d with - | q
  · simp [getNum, hg] at h
  · exact ⟨q, rfl, by simpa [getNum, hg] using h⟩

/-- The dictionary produced by the secondary-quantity loop on the happy path,
in terms of the fifteen primary entries it reads. -/
def secondary_chain (z : ℚ → ℚ) (d0 : List (String × ℚ))
    (dl1 m1l m2l cml tml dl2 m1u m2u cmu tmu dl3 m1b m2b cmb tmb : ℚ) :
    List (String × ℚ) :=
  let zl := z dl1
  let zu := z dl2
  let zb := z dl3
  let e := setKey d0 "redshift_lower" zl
  let e := setKey e "mass_1_source_lower" (m1l / (1 + zl))
  let e := setKey e "mass_2_source_lower" (m2l / (1 + zl))
  let e := setKey e "chirp_mass_source_lower" (cml / (1 + zl))
  let e := setKey e "total_mass_source_lower" (tml / (1 + zl))
  let e := setKey e "redshift_upper" zu
  let e := setKey e "mass_1_source_upper" (m1u / (1 + zu))
  let e := setKey e "mass_2_source_upper" (m2u / (1 + zu))
  let e := setKey e "chirp_mass_source_upper" (cmu / (1 + zu))
  let e := setKey e "total_mass_source_upper" (tmu / (1 + zu))
  let e := setKey e "redshift" zb
  let e := setKey e "mass_1_source" (m1b / (1 + zb))
  let e := setKey e "mass_2_source" (m2b / (1 + zb))
  let e := setKey e "chirp_mass_source" (cmb / (1 + zb))
  setKey e "total_mass_source" (tmb / (1 + zb))

theorem summarise_secondary_shape (z : ℚ → ℚ) (d0 d : List (String × ℚ))
    (h : summarise_secondary z d0 = .ok d) :
    ∃ dl1 m1l m2l cml tml dl2 m1u m2u cmu tmu dl3 m1b m2b cmb tmb,
      List.lookup "luminosity_distance_lower" d0 = some dl1 ∧
      List.lookup "mass_1_lower" d0 = some m1l ∧
      List.lookup "mass_2_lower" d0 = some m2l ∧
      List.lookup "chirp_mass_lower" d0 = some cml ∧
      List.lookup "total_mass_lower" d0 = some tml ∧
      List.lookup "luminosity_distance_upper" d0 = some dl2 ∧
      List.lookup "mass_1_upper" d0 = some m1u ∧
      List.lookup "mass_2_upper" d0 = some m2u ∧
      List.lookup "chirp_mass_upper" d0 = some cmu ∧
      List.lookup "total_mass_upper" d0 = some tmu ∧
      List.lookup "luminosity_distance" d0 = some dl3 ∧
      List.lookup "mass_1" d0 = some m1b ∧
      List.lookup "mass_2" d0 = some m2b ∧
      List.lookup "chirp_mass" d0 = some cmb ∧
      List.lookup "total_mass" d0 = some tmb ∧
      d = secondary_chain z d0 dl1 m1l m2l cml tml dl2 m1u m2u cmu tmu dl3
        m1b m2b cmb tmb := by
  simp only [summarise_secondary, List.foldlM_cons, List.foldlM_nil] at h
  simp only [bind_assoc, pure_bind] at h
  obtain ⟨dl1, h1, h⟩ := getNum_ok_of_bind h
  try simp [bind_assoc] at h
  obtain ⟨m1l, h2, h⟩ := getNum_ok_of_bind h
  try simp [bind_assoc] at h
  obtain ⟨m2l, h3, h⟩ := getNum_ok_of_bind h
  try simp [bind_assoc] at h
  obtain ⟨cml, h4, h⟩ := getNum_ok_of_bind h
  try simp [bind_assoc] at h
  obtain ⟨tml, h5, h⟩ := getNum_ok_of_bind h
  try simp [bind_assoc] at h
  obtain ⟨dl2, h6, h⟩ := getNum_ok_of_bind h
  try simp [bind_assoc] at h
  obtain ⟨m1u, h7, h⟩ := getNum_ok_of_bind h
  try simp [bind_assoc] at h
  obtain ⟨m2u, h8, h⟩ := getNum_ok_of_bind h
  try simp [bind_assoc] at h
  obtain ⟨cmu, h9, h⟩ := getNum_ok_of_bind h
  try simp [bind_assoc] at h
  obtain ⟨tmu, h10, h⟩ := getNum_ok_of_bind h
  try simp [bind_assoc] at h
  obtain ⟨dl3, h11, h⟩ := getNum_ok_of_bind h
  try simp [bind_assoc] at h
  obtain ⟨m1b, h12, h⟩ := getNum_ok_of_bind h
  try simp [bind_assoc] at h
  obtain ⟨m2b, h13, h⟩ := getNum_ok_of_bind h
  try simp [bind_assoc] at h
  obtain ⟨cmb, h14, h⟩ := getNum_ok_of_bind h
  try simp [bind_assoc] at h
  obtain ⟨tmb, h15, h⟩ := getNum_ok_of_bind h
  try simp [bind_assoc] at h
  try simp at h1 h2 h3 h4 h5 h6 h7 h8 h9 h10 h11 h12 h13 h14 h15
  refine ⟨dl1, m1l, m2l, cml, tml, dl2, m1u, m2u, cmu, tmu, dl3, m1b, m2b,
    cmb, tmb, h1, h2, h3, h4, h5, h6, h7, h8, h9, h10, h11, h12, h13, h14,
    h15, ?_⟩
  simp only [secondary_chain]
  exact h.symm

/-- C3: in the summary computed by lines 92-103, for each statistics position
independently, the stored redshift entry is the cosmology adapter applied to
the already-summarized luminosity distance at that position, and each stored
`<k>_source` entry is the already-summarized `<k>` divided by
`1 + redshift` at that position — secondary quantities are recomputed from
summarized primaries, not from the per-draw samples. -/
theorem c3_secondary_from_summaries (z : ℚ → ℚ) (t : Table)
    (d : List (String × ℚ)) (h : summarise_event_core z t = .ok d) :
    ∀ pt ∈ ["_lower", "_upper", ""],
      ∃ dlv, List.lookup ("luminosity_distance" ++ pt) d = some dlv ∧
        List.lookup ("redshift" ++ pt) d = some (z dlv) ∧
        ∀ k ∈ ["mass_1", "mass_2", "chirp_mass", "total_mass"],
          ∃ kv, List.lookup (k ++ pt) d = some kv ∧
            List.lookup (k ++ "_source" ++ pt) d = some (kv / (1 + z dlv)) := by
  simp only [summarise_event_core] at h
  obtain ⟨d0, hprim, hsec⟩ := bind_ok_iff.mp h
  obtain ⟨dl1, m1l, m2l, cml, tml, dl2, m1u, m2u, cmu, tmu, dl3, m1b, m2b,
    cmb, tmb, h1, h2, h3, h4, h5, h6, h7, h8, h9, h10, h11, h12, h13, h14,
    h15, hchain⟩ := summarise_secondary_shape z d0 d hsec
  subst hchain
  intro pt hpt
  simp only [List.mem_cons, List.not_mem_nil, or_false] at hpt
  rcases hpt with rfl | rfl | rfl
  · refine ⟨dl1, ?_, ?_, ?_⟩
    · simp [secondary_chain, h1]
    · simp [secondary_chain]
    · intro k hk
      simp only [List.mem_cons, List.not_mem_nil, or_false] at hk
      rcases hk with rfl | rfl | rfl | rfl
      · exact ⟨m1l, by simp [secondary_chain, h2], by simp [secondary_chain]⟩
      · exact ⟨m2l, by simp [secondary_chain, h3], by simp [secondary_chain]⟩
      · exact ⟨cml, by simp [secondary_chain, h4], by simp [secondary_chain]⟩
      · exact ⟨tml, by simp [secondary_chain, h5], by simp [secondary_chain]⟩
  · refine ⟨dl2, ?_, ?_, ?_⟩
    · simp [secondary_chain, h6]
    · simp [secondary_chain]
    · intro k hk
      simp only [List.mem_cons, List.not_mem_nil, or_false] at hk
      rcases hk with rfl | rfl | rfl | rfl
      · exact ⟨m1u, by simp [secondary_chain, h7], by simp [secondary_chain]⟩
      · exact ⟨m2u, by simp [secondary_chain, h8], by simp [secondary_chain]⟩
      · exact ⟨cmu, by simp [secondary_chain, h9], by simp [secondary_chain]⟩
      · exact ⟨tmu, by simp [secondary_chain, h10], by simp [secondary_chain]⟩
  · refine ⟨dl3, ?_, ?_, ?_⟩
    · simp [secondary_chain, h11]
    · simp [secondary_chain]
    · intro k hk
      simp only [List.mem_cons, List.not_mem_nil, or_false] at hk
      rcases hk with rfl | rfl | rfl | rfl
      · exact ⟨m1b, by simp [secondary_chain, h12], by simp [secondary_chain]⟩
      · exact ⟨m2b, by simp [secondary_chain, h13], by simp [secondary_chain]⟩
      · exact ⟨cmb, by simp [secondary_chain, h14], by simp [secondary_chain]⟩
      · exact ⟨tmb, by simp [secondary_chain, h15], by simp [secondary_chain]⟩

/-- A concrete standardized five-column table (one draw per column), enough
for `summarise_event_df` to succeed. -/
def exStdTable : Table :=
  [("luminosity_distance", [100]),
   ("mass_1", [30]),
   ("mass_2", [20]),
   ("chirp_mass", [21]),
   ("total_mass", [50])]

/-- C3 witness: the secondary-recomputation equations at a concrete summary. -/
theorem c3_secondary_from_summaries_witness :
    ∃ d, summarise_event_core exZ exStdTable = .ok d ∧
      ∀ pt ∈ ["_lower", "_upper", ""],
        ∃ dlv, List.lookup ("luminosity_distance" ++ pt) d = some dlv ∧
          List.lookup ("redshift" ++ pt) d = some (exZ dlv) ∧
          ∀ k ∈ ["mass_1", "mass_2", "chirp_mass", "total_mass"],
            ∃ kv, List.lookup (k ++ pt) d = some kv ∧
              List.lookup (k ++ "_source" ++ pt) d = some (kv / (1 + exZ dlv)) :=
  ⟨_, rfl, c3_secondary_from_summaries exZ exStdTable _ rfl⟩

theorem summarise_event_df_ok_keys (z : ℚ → ℚ) (t : Table)
    (d : List (String × JVal)) (hdf : summarise_event_df z t = .ok d) :
    ∃ d0, primary_summary t = .ok d0 ∧
      ∀ p ∈ ["luminosity_distance", "mass_1", "mass_2", "chirp_mass",
        "total_mass"],
        ∀ pt ∈ ["_lower", "_upper", ""],
          (List.lookup (p ++ pt) d0).isSome = true := by
  simp only [summarise_event_df] at hdf
  obtain ⟨dcore, hcore, -⟩ := bind_ok_iff.mp hdf
  simp only [summarise_event_core] at hcore
  obtain ⟨d0, hprim, hsec⟩ := bind_ok_iff.mp hcore
  obtain ⟨dl1, m1l, m2l, cml, tml, dl2, m1u, m2u, cmu, tmu, dl3, m1b, m2b,
    cmb, tmb, h1, h2, h3, h4, h5, h6, h7, h8, h9, h10, h11, h12, h13, h14,
    h15, -⟩ := summarise_secondary_shape z d0 dcore hsec
  refine ⟨d0, hprim, ?_⟩
  intro p hp pt hpt
  simp only [List.mem_cons, List.not_mem_nil, or_false] at hp hpt
  rcases hp with rfl | rfl | rfl | rfl | rfl <;>
    rcases hpt with rfl | rfl | rfl <;>
    simp [h1, h2, h3, h4, h5, h6, h7, h8, h9, h10, h11, h12, h13, h14, h15]

/-- C9: `summarise_event_df` succeeds only when the primary summary carries
entries for all five of `luminosity_distance`, `mass_1`, `mass_2`,
`chirp_mass`, `total_mass` in all three suffix positions; a table without a
`chirp_mass` or `total_mass` column can never summarise successfully, and the
table produced by `convert_df_to_gwosc_df` fails with the missing-key lookup
error `KeyError("luminosity_distance_lower")`. -/
theorem c9_summarise_requires_five_keys :
    (∀ (z : ℚ → ℚ) (t : Table) (d : List (String × JVal)),
      summarise_event_df z t = .ok d →
      ∃ d0, primary_summary t = .ok d0 ∧
        ∀ p ∈ ["luminosity_distance", "mass_1", "mass_2", "chirp_mass",
          "total_mass"],
          ∀ pt ∈ ["_lower", "_upper", ""],
            (List.lookup (p ++ pt) d0).isSome = true) ∧
    (∀ (z : ℚ → ℚ) (t : Table),
      (hasCol t "chirp_mass" = false ∨ hasCol t "total_mass" = false) →
      ∀ d, ¬ summarise_event_df z t = .ok d) ∧
    ((convert_df_to_gwosc_df exRawTable >>= summarise_event_df exZ) =
      .error (.keyError "luminosity_distance_lower")) := by
  refine ⟨summarise_event_df_ok_keys, ?_, by rfl⟩
  intro z t hor d hdf
  obtain ⟨d0, hprim, hkeys⟩ := summarise_event_df_ok_keys z t d hdf
  have hfold : primary_fold [] t = .ok d0 := by
    rw [← primary_summary_eq_fold]; exact hprim
  rcases hor with hcm | htm
  · have hk := hkeys "chirp_mass" (by simp) "" (by simp)
    simp only [String.append_empty] at hk
    rcases primary_fold_keys t [] d0 hfold "chirp_mass" hk with habs | ⟨c, hc, hor'⟩
    · simp at habs
    · rcases hor' with rfl | he | he
      · have hhas : hasCol t "chirp_mass" = true := by
          rw [hasCol, getCol?]
          exact (lookup_isSome_iff_mem_keys t _).mpr hc
        rw [hhas] at hcm
        cases hcm
      · exact string_no_append_eq "_lower" "chirp_mass" (by decide) c he.symm
      · exact string_no_append_eq "_upper" "chirp_mass" (by decide) c he.symm
  · have hk := hkeys "total_mass" (by simp) "" (by simp)
    simp only [String.append_empty] at hk
    rcases primary_fold_keys t [] d0 hfold "total_mass" hk with habs | ⟨c, hc, hor'⟩
    · simp at habs
    · rcases hor' with rfl | he | he
      · have hhas : hasCol t "total_mass" = true := by
          rw [hasCol, getCol?]
          exact (lookup_isSome_iff_mem_keys t _).mpr hc
        rw [hhas] at htm
        cases htm
      · exact string_no_append_eq "_lower" "total_mass" (by decide) c he.symm
      · exact string_no_append_eq "_upper" "total_mass" (by decide) c he.symm

/-- C9 witness: at a concrete five-column table the summariser succeeds and
the primary-key presence facts hold; at a table missing `chirp_mass` it
cannot succeed. -/
theorem c9_summarise_requires_five_keys_witness :
    (∃ d0, primary_summary exStdTable = .ok d0 ∧
      ∀ p ∈ ["luminosity_distance", "mass_1", "mass_2", "chirp_mass",
        "total_mass"],
        ∀ pt ∈ ["_lower", "_upper", ""],
          (List.lookup (p ++ pt) d0).isSome = true) ∧
    (∀ d, ¬ summarise_event_df exZ exRawTable = .ok d) := by
  constructor
  · exact c9_summarise_requires_five_keys.1 exZ exStdTable _ rfl
  · exact c9_summarise_requires_five_keys.2.1 exZ exRawTable (Or.inl (by decide))

/-- A concrete standardized table with three draws per column, on which the
quantile triple (lower, median, upper) = (1, 2, 3) is distinguishable. -/
def exT3 : Table :=
  [("luminosity_distance", [1, 2, 3]),
   ("mass_1", [1, 2, 3]),
   ("mass_2", [1, 2, 3]),
   ("chirp_mass", [1, 2, 3]),
   ("total_mass", [1, 2, 3])]

/-- C2, counterexample: the Quantile Summarizer returns
`(lower, median, upper) = (1, 2, 3)` on the column `[1, 2, 3]`, yet the
record published by `summarise_event_df` carries the **upper** value 3 under
the bare key `luminosity_distance` — not the median 2 as claimed (the Python
tuple assignment routes median to `_upper` and upper to the bare key). -/
theorem c2_quantile_routing_counterexample :
    summarise_samples [1, 2, 3] = .ok (1, 2, 3) ∧
    (summarise_event_df exZ exT3).map
      (fun d => List.lookup "luminosity_distance" d) = .ok (some (.num 3)) ∧
    (3 : ℚ) ≠ 2 := by
  refine ⟨by rfl, by rfl, by decide⟩

/-- C2 (amended): for every column `p` of the input table (with
non-overlapping summary keys), `summarise_event_df`'s primary loop stores the
Quantile Summarizer's triple `(lower, median, upper)` with the lower value
under `p_lower`, the **median under `p_upper`**, and the **upper value under
the bare key `p`**. -/
theorem c2_quantile_routing_amended (t : Table) (d0 : List (String × ℚ))
    (h : primary_summary t = .ok d0)
    (hnd : (keysOf t).Nodup)
    (hcl : ∀ c1 ∈ keysOf t, ∀ c2 ∈ keysOf t,
      ¬ c1 = c2 ++ "_lower" ∧ ¬ c1 = c2 ++ "_upper")
    (p : String) (c : Col) (hpc : (p, c) ∈ t)
    (lo med up : ℚ) (hs : summarise_samples c = .ok (lo, med, up)) :
    List.lookup (p ++ "_lower") d0 = some lo ∧
    List.lookup (p ++ "_upper") d0 = some med ∧
    List.lookup p d0 = some up :=
  primary_fold_triple t [] d0
    (by rw [← primary_summary_eq_fold]; exact h) hnd hcl p c hpc lo med up hs

/-- C2 witness for the amended theorem, at the concrete three-draw table. -/
theorem c2_quantile_routing_amended_witness :
    ∃ d0, primary_summary exT3 = .ok d0 ∧
      (List.lookup ("luminosity_distance" ++ "_lower") d0 = some 1 ∧
       List.lookup ("luminosity_distance" ++ "_upper") d0 = some 2 ∧
       List.lookup "luminosity_distance" d0 = some 3) :=
  ⟨_, rfl, c2_quantile_routing_amended exT3 _ rfl (by decide) (by decide)
    "luminosity_distance" [1, 2, 3] (by decide) 1 2 3 (by rfl)⟩

theorem lookup_map_pair_mem {β : Type} (f : String → β) (R : List String)
    (k : String) (hk : k ∈ R) :
    List.lookup k (R.map (fun x => (x, f x))) = some (f k) := by
  induction R with
  | nil => simp at hk
  | cons a R' ih =>
    by_cases h : k = a
    · subst h
      simp
    · have : k ∈ R' := by
        rcases List.mem_cons.mp hk with he | hm
        · exact absurd he h
        · exact hm
      simp [h, ih this]

theorem lookup_map_pair_not_mem {β : Type} (f : String → β) (R : List String)
    (k : String) (hk : ¬ k ∈ R) :
    List.lookup k (R.map (fun x => (x, f x))) = none := by
  induction R with
  | nil => simp
  | cons a R' ih =>
    have h : ¬ k = a := fun he => hk (by simp [he])
    have h' : ¬ k ∈ R' := fun hm => hk (by simp [hm])
    simp [h, ih h']

/-- C4: after `summarise_event_df` filters through `GWOSC_KEYS` and
`summarise_all_events` attaches `commonName`, the record's keys are exactly
`GWOSC_KEYS` plus `version` and `commonName`; every published key whose value
was not computed is present with value `null`, and every key outside the
published set (other than the two metadata keys) is absent. -/
theorem c4_published_key_filtering (z : ℚ → ℚ) (t : Table) (name : String)
    (d : List (String × JVal)) (h : summarise_event_df z t = .ok d) :
    keysOf (setKey d "commonName" (JVal.str name)) =
      GWOSC_KEYS ++ ["version", "commonName"] ∧
    (∀ k ∈ GWOSC_KEYS, ∀ s, summarise_event_core z t = .ok s →
      List.lookup k s = none →
      List.lookup k (setKey d "commonName" (JVal.str name)) =
        some JVal.null) ∧
    (∀ k, ¬ k ∈ GWOSC_KEYS → ¬ k = "version" → ¬ k = "commonName" →
      List.lookup k (setKey d "commonName" (JVal.str name)) = none) := by
  simp only [summarise_event_df] at h
  obtain ⟨s0, hcore, hrest⟩ := bind_ok_iff.mp h
  have hd : d = setKey
      (GWOSC_KEYS.map (fun k =>
        (k, match List.lookup k s0 with
            | some q => JVal.num q
            | none => JVal.null)))
      "version" (JVal.num 1) := by
    have := hrest
    simp only [ok_bind] at this
    exact (Except.ok.inj this).symm
  subst hd
  have hver : ¬ "version" ∈ GWOSC_KEYS := by decide
  have hcn : ¬ "commonName" ∈ GWOSC_KEYS := by decide
  have hkeys0 : keysOf (GWOSC_KEYS.map (fun k =>
      (k, match List.lookup k s0 with
          | some q => JVal.num q
          | none => JVal.null))) = GWOSC_KEYS := by
    rw [keysOf, List.map_map]
    have hfn : (Prod.fst ∘ fun k =>
        (k, match List.lookup k s0 with
            | some q => JVal.num q
            | none => JVal.null)) = id := funext fun k => rfl
    rw [hfn, List.map_id]
  refine ⟨?_, ?_, ?_⟩
  · rw [keysOf_setKey_not_mem, keysOf_setKey_not_mem, hkeys0]
    · simp
    · rw [hkeys0]; exact hver
    · rw [keysOf_setKey_not_mem]
      · rw [hkeys0]
        intro hm
        rcases List.mem_append.mp hm with hm | hm
        · exact hcn hm
        · simp at hm
      · rw [hkeys0]; exact hver
  · intro k hk s hs hnone
    have hs0 : s = s0 := by
      rw [hcore] at hs
      exact (Except.ok.inj hs).symm
    subst hs0
    have hkv : ¬ k = "version" := fun he => hver (he ▸ hk)
    have hkc : ¬ k = "commonName" := fun he => hcn (he ▸ hk)
    rw [lookup_setKey, if_neg hkc, lookup_setKey, if_neg hkv,
      lookup_map_pair_mem _ _ _ hk, hnone]
  · intro k hk hkv hkc
    rw [lookup_setKey, if_neg hkc, lookup_setKey, if_neg hkv,
      lookup_map_pair_not_mem _ _ _ hk]

/-- C4 witness: the key-set equality, a null published key (`far`), and the
absence of an unpublished computed key (`mass_1`) at a concrete summary. -/
theorem c4_published_key_filtering_witness :
    ∃ d, summarise_event_df exZ exStdTable = .ok d ∧
      keysOf (setKey d "commonName" (JVal.str "GW150914")) =
        GWOSC_KEYS ++ ["version", "commonName"] ∧
      List.lookup "far" (setKey d "commonName" (JVal.str "GW150914")) =
        some JVal.null ∧
      List.lookup "mass_1" (setKey d "commonName" (JVal.str "GW150914")) =
        none := by
  refine ⟨_, rfl, ?_, ?_, ?_⟩
  · exact (c4_published_key_filtering exZ exStdTable "GW150914" _ rfl).1
  · exact (c4_published_key_filtering exZ exStdTable "GW150914" _ rfl).2.1
      "far" (by decide) _ rfl (by rfl)
  · exact (c4_published_key_filtering exZ exStdTable "GW150914" _ rfl).2.2
      "mass_1" (by decide) (by decide) (by decide)

/-! ## C8: the event-name derivation rule -/

theorem pySplitFuel_headD (sep : List Char) (hsep : sep ≠ []) :
    ∀ (fuel : Nat) (s : List Char), s.length ≤ fuel →
      (pySplitFuel sep fuel s).headD [] = takeBeforeFirst sep s := by
  intro fuel
  induction fuel with
  | zero =>
    intro s hs
    have : s = [] := List.eq_nil_of_length_eq_zero (Nat.le_zero.mp hs)
    subst this
    rfl
  | succ fuel ih =>
    intro s hs
    match s with
    | [] => rfl
    | c :: rest =>
      by_cases hpre : sep.isPrefixOf (c :: rest)
      · simp [pySplitFuel, takeBeforeFirst, hpre, hsep]
      · have hrest := ih rest (by simp at hs; omega)
        rcases hps : pySplitFuel sep fuel rest with - | ⟨seg, segs⟩
        · rw [hps] at hrest
          simp only [List.headD_nil] at hrest
          simp [pySplitFuel, takeBeforeFirst, hpre, hsep, hps, ← hrest]
        · rw [hps] at hrest
          simp only [List.headD_cons] at hrest
          simp [pySplitFuel, takeBeforeFirst, hpre, hsep, hps, hrest]

theorem pySplit_headD (sep : List Char) (hsep : sep ≠ []) (s : List Char) :
    (pySplit sep s).headD [] = takeBeforeFirst sep s :=
  pySplitFuel_headD sep hsep s.length s le_rfl

/-- The spec's naming rule: take the basename, truncate at the first
occurrence of `".h"`, keep the segment before the first underscore. -/
def spec_event_name (file : String) : String :=
  String.mk
    (takeBeforeFirst ['_'] (takeBeforeFirst ['.', 'h'] (basename file).data))

/-- C8: the event name under which the catalogue keys each record is derived
from the file name exactly by the fixed rule: basename, truncation at the
first `".h"`, then the segment before the first underscore; shown both as an
equation valid for every path and on concrete GWTC-1 posterior file names. -/
theorem c8_event_name_rule :
    (∀ file : String, event_name_of_file file = spec_event_name file) ∧
    event_name_of_file "../data/lvc_search/gwtc1/GW170729_GWTC-1.hdf5" =
      "GW170729" ∧
    event_name_of_file "GW150914.h5" = "GW150914" := by
  refine ⟨?_, by rfl, by rfl⟩
  intro file
  simp only [event_name_of_file, spec_event_name]
  rw [pySplit_headD _ (by decide), pySplit_headD _ (by decide)]
